import Mathlib

/-! Verification of surface-streams: frame segmentation, calibration and control state.

A shallow embedding of `src/common.cpp` and `src/realsense.cpp`.

Conventions of the embedding
* `float`/`double` values are exact rationals (`ℚ`): no rounding, no NaN, no infinity.
* the frame buffers are raw memory read through a pointer: a buffer is a function from the
  byte (or sample) offset to the value stored there, so that writes outside a frame are visible.
* `int` counters are natural numbers; the streams are configured at 1280x720, far from any
  overflow of a 32-bit `int`.
* the global variables of `common.cpp` are the fields of `Globals`.
* functions of OpenCV, librealsense, GStreamer and the RANSAC headers are not part of the
  sources; they are parameters of the definitions that call them.
-/

namespace SurfaceStreams

/-! ## Frame buffers -/

/-- One `uint8_t`. -/
abbrev Byte := Fin 256

/-- One `uint16_t` depth sample. -/
abbrev Depth16 := Fin 65536

/-- Memory behind a `uint8_t*`: the byte at every offset from the pointer. -/
abbrev Mem := Nat → Byte

/-- Memory behind a `const uint16_t*`: the sample at every index from the pointer. -/
abbrev DepthMem := Nat → Depth16

/-- The call `std::memset(&p[offset], c, n)`. -/
def memset (p : Mem) (offset : Nat) (c : Byte) (n : Nat) : Mem :=
  fun j => if offset ≤ j ∧ j < offset + n then c else p j

/-- The loop `for (int i = 0; i < n; i++) s = body i s`. -/
def forLoop {σ : Type} : Nat → (Nat → σ → σ) → σ → σ
  | 0, _, s => s
  | n + 1, body, s => body n (forLoop n body s)

/-- The local `float clipping_dist = 1.0;` of the loop body (realsense.cpp:107). -/
def clipping_dist : ℚ := 1

/-- The value `pixels_distance = depth_scale * p_depth_frame[depth_pixel_index]`
(realsense.cpp:116). -/
def pixels_distance (depth_scale : ℚ) (p_depth_frame : DepthMem) (depth_pixel_index : Nat) : ℚ :=
  depth_scale * ((p_depth_frame depth_pixel_index).val : ℚ)

/-- The test of realsense.cpp:119, `pixels_distance <= 0.f || pixels_distance > clipping_dist`. -/
def isBackground (depth_scale : ℚ) (p_depth_frame : DepthMem) (depth_pixel_index : Nat) : Bool :=
  decide (pixels_distance depth_scale p_depth_frame depth_pixel_index ≤ 0) ||
    decide (pixels_distance depth_scale p_depth_frame depth_pixel_index > clipping_dist)

/-- Body of the inner loop (realsense.cpp:115-124) for one `depth_pixel_index`. -/
def segmentPixel (depth_scale : ℚ) (p_depth_frame : DepthMem) (other_bpp : Nat)
    (p_other_frame : Mem) (depth_pixel_index : Nat) : Mem :=
  if isBackground depth_scale p_depth_frame depth_pixel_index then
    memset p_other_frame (depth_pixel_index * other_bpp) 0x99 other_bpp
  else p_other_frame

/-- The inner loop `for (int x = 0; x < width; x++, ++depth_pixel_index)`; the state is the
color buffer together with the running `depth_pixel_index`. -/
def segmentRow (depth_scale : ℚ) (p_depth_frame : DepthMem) (other_bpp width : Nat)
    (st : Mem × Nat) : Mem × Nat :=
  forLoop width
    (fun _ s => (segmentPixel depth_scale p_depth_frame other_bpp s.1 s.2, s.2 + 1)) st

/-- The segmentation pass (realsense.cpp:112-126). -/
def segment (depth_scale : ℚ) (p_depth_frame : DepthMem) (width height other_bpp : Nat)
    (p_other_frame : Mem) : Mem :=
  forLoop height
    (fun y p => (segmentRow depth_scale p_depth_frame other_bpp width (p, y * width)).1)
    p_other_frame

/-! ## OpenCV state of common.cpp -/

/-- The type `cv::Point2f`. -/
structure Point2f where
  x : ℚ
  y : ℚ
deriving DecidableEq

/-- The type `cv::Mat`, as its rows; `[]` is the empty matrix `Mat()`. -/
abbrev Mat := List (List ℚ)

/-- The matrix `im` (common.cpp:21), called the identity matrix there. -/
def im : Mat := [[1280.0 / 1920.0, 0, 0], [0, 720.0 / 1080.0, 0], [0, 0, 1]]

/-- The type `Eigen::Vector3f`. -/
structure Vector3f where
  x : ℚ
  y : ℚ
  z : ℚ
deriving DecidableEq

instance : Neg Vector3f := ⟨fun v => ⟨-v.x, -v.y, -v.z⟩⟩

/-- The type `PlaneModel<float>`; the header `PlaneModel.h` is not among the sources, the members
`n` and `d` are the ones `ransac_plane` accesses. -/
structure PlaneModel where
  n : Vector3f
  d : ℚ
deriving DecidableEq

/-- The global variables of common.cpp. `quit` is the flag behind the pointer `bool *quit`. -/
structure Globals where
  src : List Point2f
  dst : List Point2f
  pm : Mat
  plane : PlaneModel
  find_plane : Bool
  filter : Bool
  quit : Bool
  distance : ℚ
deriving DecidableEq

/-- The globals as their initialisers leave them; `plane0` is the default-constructed
`PlaneModel<float>`. -/
def initialGlobals (plane0 : PlaneModel) : Globals :=
  { src := [], dst := [], pm := im, plane := plane0, find_plane := true, filter := true,
    quit := false, distance := 1 }

/-- A line written to `std::cout`. -/
inductive Output where
  | pointCount (n : Nat)
  | ransacPlane (plane : PlaneModel)
  | currentDistance (distance : ℚ)
  | centerDistance (d : ℚ)
deriving DecidableEq

/-- What `cv::FileStorage file("perspective.xml", READ)` offers to `opencv_init`: whether it
is opened, and the matrix under `file["perspective"]` (`none` for an empty node). -/
structure FileStorage where
  isOpened : Bool
  perspective : Option Mat
deriving DecidableEq

/-- The function `opencv_init` (common.cpp:25-30). `readMat node pm` is the value `node >> pm` leaves in
`pm` (OpenCV). -/
def opencv_init (readMat : Option Mat → Mat → Mat) (file : FileStorage) (g : Globals) :
    Globals :=
  let g1 := { g with pm := readMat file.perspective g.pm }
  if !file.isOpened then { g1 with pm := im } else g1

/-- The function `calcPerspective` (common.cpp:32-50): the returned matrix and the globals afterwards.
`getPerspectiveTransform` is the one of OpenCV. The write of the result to `perspective.xml`
changes no global. -/
def calcPerspective (getPerspectiveTransform : List Point2f → List Point2f → Mat)
    (g : Globals) : Mat × Globals :=
  let dst1 := g.dst ++ [⟨0, 0⟩]
  let dst2 := dst1 ++ [⟨1280, 0⟩]
  let dst3 := dst2 ++ [⟨1280, 720⟩]
  let dst4 := dst3 ++ [⟨0, 720⟩]
  let result := getPerspectiveTransform g.src dst4
  (result, { g with src := [], dst := [] })

/-! ## GStreamer event handler of common.cpp -/

/-- The events `pad_event` distinguishes. `other` is any event that is not a navigation event,
with the answer of `gst_pad_event_default`; `otherNavigation` is a navigation event that is
neither a mouse-button release nor a key press. -/
inductive GstEvent where
  | other (handled : Bool)
  | mouseButtonRelease (b : Int) (x y : ℚ)
  | keyPress (key : String)
  | otherNavigation
deriving DecidableEq

/-- The key-press case of the switch (common.cpp:103-128), up to the `break`. -/
def keyPressCase (g : Globals) (key : String) : Globals × List Output :=
  let g1 := if key = "space" then { g with pm := im } else g
  let g2 := if key = "p" then { g1 with find_plane := true } else g1
  let g3 := if key = "f" then { g2 with filter := !g2.filter } else g2
  let g4 := if key = "q" then { g3 with quit := true } else g3
  let g5 := if key = "plus" then { g4 with distance := g4.distance + 0.2 } else g4
  let g6 := if key = "minus" then { g5 with distance := g5.distance - 0.2 } else g5
  (g6, [Output.currentDistance g6.distance])

/-- The tail of `pad_event` after the switch (common.cpp:134-139). -/
def afterSwitch (getPerspectiveTransform : List Point2f → List Point2f → Mat)
    (g : Globals) : Globals :=
  if g.src.length = 4 then
    let r := calcPerspective getPerspectiveTransform g
    { r.2 with pm := r.1 }
  else g

/-- What one call of `pad_event` leaves behind. -/
structure PadEventResult where
  globals : Globals
  handled : Bool
  console : List Output
deriving DecidableEq

/-- The function `pad_event` (common.cpp:87-140). -/
def pad_event (getPerspectiveTransform : List Point2f → List Point2f → Mat)
    (g : Globals) (event : GstEvent) : PadEventResult :=
  match event with
  | GstEvent.other handled => ⟨g, handled, []⟩
  | GstEvent.otherNavigation => ⟨g, false, []⟩
  | GstEvent.mouseButtonRelease _ x y =>
    let g1 := { g with src := g.src ++ [⟨1920.0 * x / 1280.0, 1080.0 * y / 720.0⟩] }
    ⟨afterSwitch getPerspectiveTransform g1, true, []⟩
  | GstEvent.keyPress key =>
    let r := keyPressCase g key
    ⟨afterSwitch getPerspectiveTransform r.1, true, r.2⟩

/-- The globals after a sequence of events, each handled by `pad_event`. -/
def handleEvents (getPerspectiveTransform : List Point2f → List Point2f → Mat)
    (g : Globals) (events : List GstEvent) : Globals :=
  events.foldl (fun s e => (pad_event getPerspectiveTransform s e).globals) g

/-! ## realsense.cpp -/

/-- The global `int dw = 1280` (realsense.cpp:13). -/
def dw : Nat := 1280

/-- The global `int dh = 720` (realsense.cpp:13). -/
def dh : Nat := 720

/-- What the code reads of an `rs2::depth_frame`. `get_distance x y` is the one of librealsense. -/
structure DepthFrame where
  get_width : Nat
  get_height : Nat
  get_data : DepthMem
  get_distance : Nat → Nat → ℚ

/-- What the code reads of the colour `rs2::video_frame`. -/
structure VideoFrame where
  get_bytes_per_pixel : Nat
  get_data : Mem

/-- The point-collecting loops of `ransac_plane` (realsense.cpp:21-29). `deproject intr px d`
is the point `rs2_deproject_pixel_to_point` writes; a rational is never NaN or infinite, so of
the three tests of line 25 the last one remains. -/
def collectPoints {Intr : Type} (deproject : Intr → ℚ × ℚ → ℚ → Vector3f)
    (depth : DepthFrame) (intr : Intr) : List Vector3f :=
  forLoop dh
    (fun y pts0 =>
      forLoop dw
        (fun x pts =>
          let pt := deproject intr ((x : ℚ), (y : ℚ)) (depth.get_distance x y)
          if pt.z ≤ 0 then pts else pts ++ [pt])
        pts0)
    []

/-- The function `ransac_plane` (realsense.cpp:17-37): the returned plane and the lines printed.
`ransac points threshold iterations` is `ransac<PlaneModel<float>>` of `SimpleRansac.h`. -/
def ransac_plane {Intr : Type} (ransac : List Vector3f → ℚ → Nat → PlaneModel)
    (deproject : Intr → ℚ × ℚ → ℚ → Vector3f)
    (depth : DepthFrame) (intr : Intr) (distance : ℚ) : PlaneModel × List Output :=
  let points := collectPoints deproject depth intr
  let plane := ransac points (distance * 0.01) 200
  let plane1 := if plane.d < 0.0 then { d := -plane.d, n := -plane.n } else plane
  (plane1, [Output.pointCount points.length, Output.ransacPlane plane1])

/-- What one iteration of the main loop leaves behind: the globals, the buffer handed to
`prepare_buffer` (the sink), and the lines printed. -/
structure Iteration where
  globals : Globals
  sink : Mem
  console : List Output

/-- The body of `while (!_quit)` in `main` (realsense.cpp:82-136), from the aligned frame
pair on. -/
def loop_body {Intr : Type} (ransac : List Vector3f → ℚ → Nat → PlaneModel)
    (deproject : Intr → ℚ × ℚ → ℚ → Vector3f) (intrinsics : Intr) (depth_scale : ℚ)
    (g : Globals) (color_frame : VideoFrame) (depth : DepthFrame) : Iteration :=
  let planeStep : Globals × List Output :=
    if g.find_plane then
      ({ g with find_plane := false },
        (ransac_plane ransac deproject depth intrinsics g.distance).2)
    else (g, [])
  let width := depth.get_width
  let height := depth.get_height
  let other_bpp := color_frame.get_bytes_per_pixel
  let p_other_frame := segment depth_scale depth.get_data width height other_bpp
    color_frame.get_data
  let dist_to_center := depth.get_distance (width / 2) (height / 2)
  { globals := planeStep.1, sink := p_other_frame,
    console := planeStep.2 ++ [Output.centerDistance dist_to_center] }

/-! ## Definitions used to state the properties -/

/-- The colour buffer once the pixels with index below `n` have been classified. -/
def segmentedUpTo (depth_scale : ℚ) (p_depth_frame : DepthMem) (other_bpp : Nat)
    (p_other_frame : Mem) (n : Nat) : Mem :=
  fun j => if j < n * other_bpp ∧ isBackground depth_scale p_depth_frame (j / other_bpp) = true
    then 0x99 else p_other_frame j

/-- A concrete plane, used as the stored plane in examples: `n = (0, 0, 1)`, `d = 0`. -/
def planeA : PlaneModel := ⟨⟨0, 0, 1⟩, 0⟩

/-- A plane estimator that ignores its points and answers `planeA`. -/
def ransacA : List Vector3f → ℚ → Nat → PlaneModel := fun _ _ _ => planeA

/-- A deprojection that answers the origin, for examples where the point cloud plays no role. -/
def deprojectA : Unit → ℚ × ℚ → ℚ → Vector3f := fun _ _ _ => ⟨0, 0, 0⟩

/-- A homography solver that always answers `im`, for examples. -/
def solverA : List Point2f → List Point2f → Mat := fun _ _ => im

/-- A 1x1 depth frame whose only sample is `raw`. -/
def depth1 (raw : Depth16) : DepthFrame :=
  { get_width := 1, get_height := 1, get_data := fun _ => raw, get_distance := fun _ _ => 0 }

/-- A colour frame of 3 bytes per pixel whose bytes are all 7. -/
def color7 : VideoFrame := { get_bytes_per_pixel := 3, get_data := fun _ => 7 }

/-- The corners of the output rectangle in the order `calcPerspective` pushes them. -/
def corners : List Point2f := [⟨0, 0⟩, ⟨1280, 0⟩, ⟨1280, 720⟩, ⟨0, 720⟩]

/-- A pointer release with button `c.1` at surface coordinates `(c.2.1, c.2.2)`. -/
def release (c : Int × ℚ × ℚ) : GstEvent := GstEvent.mouseButtonRelease c.1 c.2.1 c.2.2

/-- The point `pad_event` records for a pointer release (common.cpp:100). -/
def recorded (c : Int × ℚ × ℚ) : Point2f := ⟨1920.0 * c.2.1 / 1280.0, 1080.0 * c.2.2 / 720.0⟩

/-- The globals a key press is expected to leave, as a table on the key name. -/
def keyTable (s : Globals) (key : String) : Globals :=
  if key = "space" then { s with pm := [[1280 / 1920, 0, 0], [0, 720 / 1080, 0], [0, 0, 1]] }
  else if key = "p" then { s with find_plane := true }
  else if key = "f" then { s with filter := !s.filter }
  else if key = "q" then { s with quit := true }
  else if key = "plus" then { s with distance := s.distance + 0.2 }
  else if key = "minus" then { s with distance := s.distance - 0.2 }
  else s

/-- The scalar product `n · x`. -/
def dot (n x : Vector3f) : ℚ := n.x * x.x + n.y * x.y + n.z * x.z

/-- The raw fit inside `ransac_plane`: what `ransac<PlaneModel<float>>` returns there. -/
def rawFit {Intr : Type} (ransac : List Vector3f → ℚ → Nat → PlaneModel)
    (deproject : Intr → ℚ × ℚ → ℚ → Vector3f)
    (depth : DepthFrame) (intr : Intr) (distance : ℚ) : PlaneModel :=
  ransac (collectPoints deproject depth intr) (distance * 0.01) 200

/-- A second concrete plane, `n = (0, 1, 0)`, `d = 2`. -/
def planeB : PlaneModel := ⟨⟨0, 1, 0⟩, 2⟩

/-- A plane estimator that ignores its points and answers `planeB`. -/
def ransacB : List Vector3f → ℚ → Nat → PlaneModel := fun _ _ _ => planeB

/-- A plane estimator that ignores its points and answers the plane `n = (0, 0, 1)`,
`d = -3`, of negative offset. -/
def ransacNeg : List Vector3f → ℚ → Nat → PlaneModel := fun _ _ _ => ⟨⟨0, 0, 1⟩, -3⟩

/-- The reader of OpenCV, `node >> pm`, which `opencv_init` is run with in the examples: a
node that holds a matrix yields that matrix, an empty node yields the empty matrix `Mat()`
(the default value `operator>>` passes to `cv::read`). -/
def cvRead : Option Mat → Mat → Mat
  | some m, _ => m
  | none, _ => []

/-- The entry in row `i` and column `j` of a matrix (0 outside the matrix). -/
def entry (m : Mat) (i j : Nat) : ℚ := (m.getD i []).getD j 0

/-- The third homogeneous coordinate of the image of `p` under the matrix `m`. -/
def homogeneousW (m : Mat) (p : Point2f) : ℚ :=
  entry m 2 0 * p.x + entry m 2 1 * p.y + entry m 2 2

/-- The image of the point `p` under the perspective map of the 3x3 matrix `m`; there is none
where the third homogeneous coordinate vanishes. -/
def perspectiveMap (m : Mat) (p : Point2f) : Option Point2f :=
  if homogeneousW m p = 0 then none
  else some ⟨(entry m 0 0 * p.x + entry m 0 1 * p.y + entry m 0 2) / homogeneousW m p,
             (entry m 1 0 * p.x + entry m 1 1 * p.y + entry m 1 2) / homogeneousW m p⟩

/-- The matrix `m` maps the i-th point of `src` to the i-th point of `dst`, for every i. -/
def mapsEach (m : Mat) : List Point2f → List Point2f → Prop
  | [], [] => True
  | p :: ps, c :: cs => perspectiveMap m p = some c ∧ mapsEach m ps cs
  | _, _ => False

/-- Three points on one line. -/
def collinear (a b c : Point2f) : Prop :=
  (b.x - a.x) * (c.y - a.y) = (c.x - a.x) * (b.y - a.y)

/-- Four points, no three of them on one line. -/
def generalPosition : List Point2f → Prop
  | [p1, p2, p3, p4] =>
    ¬ collinear p1 p2 p3 ∧ ¬ collinear p1 p2 p4 ∧ ¬ collinear p1 p3 p4 ∧ ¬ collinear p2 p3 p4
  | _ => False

/-- The two rows that the pair `(p, c)` contributes to the linear system solved by
`getPerspectiveTransform` of OpenCV, in the unknowns `c00 .. c21` and with `c22 = 1`:
`c00 x + c01 y + c02 - c20 x u - c21 y u = u` and `c10 x + c11 y + c12 - c20 x v - c21 y v = v`
for `p = (x, y)` and `c = (u, v)`. -/
def pairEquations (m : Mat) (p c : Point2f) : Prop :=
  entry m 0 0 * p.x + entry m 0 1 * p.y + entry m 0 2
      - entry m 2 0 * p.x * c.x - entry m 2 1 * p.y * c.x = c.x
  ∧ entry m 1 0 * p.x + entry m 1 1 * p.y + entry m 1 2
      - entry m 2 0 * p.x * c.y - entry m 2 1 * p.y * c.y = c.y

/-- The matrix `m` has `c22 = 1` and solves the linear system of `getPerspectiveTransform` for
the four pairs of `src` and `dst`. -/
def solvesSystem (m : Mat) : List Point2f → List Point2f → Prop
  | [p1, p2, p3, p4], [c1, c2, c3, c4] =>
    entry m 2 2 = 1 ∧ pairEquations m p1 c1 ∧ pairEquations m p2 c2
      ∧ pairEquations m p3 c3 ∧ pairEquations m p4 c4
  | _, _ => False

/-- Four clicks whose recorded points lie two by two on lines through the origin of the
surface. -/
def clicksThroughOrigin : List (Int × ℚ × ℚ) :=
  [(1, 200, 100), (1, 400, 200), (1, 200, 400), (1, 100, 200)]

/-- Four clicks on the corners of the 1280x720 surface. -/
def clicksOnCorners : List (Int × ℚ × ℚ) :=
  [(1, 0, 0), (1, 1280, 0), (1, 1280, 720), (1, 0, 720)]

/-- The matrix of the linear system of `getPerspectiveTransform` (OpenCV, imgwarp.cpp) for the
source points `p1 .. p4` and the destination points `c1 .. c4`, in the unknowns
`c00, c01, c02, c10, c11, c12, c20, c21`: row `i` is `x y 1 0 0 0 -x*u -y*u` and row `i + 4` is
`0 0 0 x y 1 -x*v -y*v` for `p_i = (x, y)` and `c_i = (u, v)`. -/
def systemMatrix (p1 p2 p3 p4 c1 c2 c3 c4 : Point2f) : Matrix (Fin 8) (Fin 8) ℚ :=
  !![p1.x, p1.y, 1, 0, 0, 0, -p1.x * c1.x, -p1.y * c1.x;
     p2.x, p2.y, 1, 0, 0, 0, -p2.x * c2.x, -p2.y * c2.x;
     p3.x, p3.y, 1, 0, 0, 0, -p3.x * c3.x, -p3.y * c3.x;
     p4.x, p4.y, 1, 0, 0, 0, -p4.x * c4.x, -p4.y * c4.x;
     0, 0, 0, p1.x, p1.y, 1, -p1.x * c1.y, -p1.y * c1.y;
     0, 0, 0, p2.x, p2.y, 1, -p2.x * c2.y, -p2.y * c2.y;
     0, 0, 0, p3.x, p3.y, 1, -p3.x * c3.y, -p3.y * c3.y;
     0, 0, 0, p4.x, p4.y, 1, -p4.x * c4.y, -p4.y * c4.y]

/-- The right-hand side of the linear system of `getPerspectiveTransform`. -/
def systemRhs (c1 c2 c3 c4 : Point2f) : Fin 8 → ℚ :=
  ![c1.x, c2.x, c3.x, c4.x, c1.y, c2.y, c3.y, c4.y]

/-- The linear system of `getPerspectiveTransform` for four source and four destination
points is nonsingular. -/
def nonsingular : List Point2f → List Point2f → Prop
  | [p1, p2, p3, p4], [c1, c2, c3, c4] => (systemMatrix p1 p2 p3 p4 c1 c2 c3 c4).det ≠ 0
  | _, _ => False

/-- Row `r` minus `k` times row `p`. -/
def rowSub (r p : List ℚ) (k : ℚ) : List ℚ :=
  List.zipWith (fun a b => a - k * b) r p

/-- One column of a Gauss-Jordan elimination. The state holds the pivot rows found so far,
each with its column, and the rows without a pivot yet. A row with a non-zero entry in column
`c` is scaled to entry 1 and column `c` is cleared in every other row. -/
def eliminateColumn (st : List (Nat × List ℚ) × List (List ℚ)) (c : Nat) :
    List (Nat × List ℚ) × List (List ℚ) :=
  match st.2.find? (fun r => decide (r.getD c 0 ≠ 0)) with
  | none => st
  | some r =>
    (st.1.map (fun e => (e.1, rowSub e.2 (r.map (fun a => a / r.getD c 0)) (e.2.getD c 0)))
        ++ [(c, r.map (fun a => a / r.getD c 0))],
      (st.2.erase r).map
        (fun q => rowSub q (r.map (fun a => a / r.getD c 0)) (q.getD c 0)))

/-- The pivot rows of the Gauss-Jordan elimination of eight augmented rows. -/
def gaussJordan (rows : List (List ℚ)) : List (Nat × List ℚ) :=
  ((List.range 8).foldl eliminateColumn ([], rows)).1

/-- The entry `j` of the candidate solution read off the pivot rows (free unknowns are 0). -/
def solutionEntry (pivots : List (Nat × List ℚ)) (j : Nat) : ℚ :=
  match pivots.find? (fun e => decide (e.1 = j)) with
  | some e => e.2.getD 8 0
  | none => 0

/-- The entry `j` of a vector of the kernel read off the pivot rows: the first column without
a pivot gets 1; the zero vector if every column has a pivot. -/
def kernelEntry (pivots : List (Nat × List ℚ)) (j : Nat) : ℚ :=
  match (List.range 8).find? (fun c => pivots.all (fun e => decide (e.1 ≠ c))) with
  | none => 0
  | some f =>
    if j = f then 1
    else match pivots.find? (fun e => decide (e.1 = j)) with
      | some e => -e.2.getD f 0
      | none => 0

/-- The augmented rows of the system `A x = b`. -/
def augmentedRows (A : Matrix (Fin 8) (Fin 8) ℚ) (b : Fin 8 → ℚ) : List (List ℚ) :=
  List.ofFn (fun i : Fin 8 => List.ofFn (fun j : Fin 8 => A i j) ++ [b i])

/-- The solution of `A x = b` in exact arithmetic. A Gauss-Jordan elimination yields a
candidate solution and a candidate vector of the kernel, and both are checked against `A`:
a singular system gives the zero vector (what `cv::solve` leaves when it fails), otherwise the
solution is returned. The last line, the rule of Cramer, is the solution in closed form; it is
reached only if the elimination yields neither a solution nor a vector of the kernel. -/
def exactSolve (A : Matrix (Fin 8) (Fin 8) ℚ) (b : Fin 8 → ℚ) : Fin 8 → ℚ :=
  if (fun j : Fin 8 => kernelEntry (gaussJordan (augmentedRows A b)) j.val) ≠ 0
      ∧ A.mulVec (fun j : Fin 8 => kernelEntry (gaussJordan (augmentedRows A b)) j.val) = 0
  then 0
  else if A.mulVec (fun j : Fin 8 => solutionEntry (gaussJordan (augmentedRows A b)) j.val) = b
  then fun j : Fin 8 => solutionEntry (gaussJordan (augmentedRows A b)) j.val
  else if A.det = 0 then 0 else (A.det)⁻¹ • Matrix.cramer A b

/-- What `getPerspectiveTransform` of OpenCV computes, in exact arithmetic: the solution of its
linear system (the zero vector for a singular system) as a 3x3 matrix with `c22 = 1`. OpenCV
is not among the sources; this solver stands in its place where a statement needs a concrete
one. -/
def exactPerspectiveTransform : List Point2f → List Point2f → Mat
  | [p1, p2, p3, p4], [c1, c2, c3, c4] =>
    [[exactSolve (systemMatrix p1 p2 p3 p4 c1 c2 c3 c4) (systemRhs c1 c2 c3 c4) 0,
      exactSolve (systemMatrix p1 p2 p3 p4 c1 c2 c3 c4) (systemRhs c1 c2 c3 c4) 1,
      exactSolve (systemMatrix p1 p2 p3 p4 c1 c2 c3 c4) (systemRhs c1 c2 c3 c4) 2],
     [exactSolve (systemMatrix p1 p2 p3 p4 c1 c2 c3 c4) (systemRhs c1 c2 c3 c4) 3,
      exactSolve (systemMatrix p1 p2 p3 p4 c1 c2 c3 c4) (systemRhs c1 c2 c3 c4) 4,
      exactSolve (systemMatrix p1 p2 p3 p4 c1 c2 c3 c4) (systemRhs c1 c2 c3 c4) 5],
     [exactSolve (systemMatrix p1 p2 p3 p4 c1 c2 c3 c4) (systemRhs c1 c2 c3 c4) 6,
      exactSolve (systemMatrix p1 p2 p3 p4 c1 c2 c3 c4) (systemRhs c1 c2 c3 c4) 7,
      1]]
  | _, _ => []

/-! ## Segmentation lemmas -/

theorem div_eq_of_pixel_range {n bpp j : Nat} (h1 : n * bpp ≤ j) (h2 : j < n * bpp + bpp) :
    j / bpp = n := by
  have hb : 0 < bpp := by
    rcases Nat.eq_zero_or_pos bpp with h | h
    · subst h; omega
    · exact h
  apply Nat.div_eq_of_lt_le
  · exact h1
  · calc j < n * bpp + bpp := h2
      _ = (n + 1) * bpp := by ring

theorem segmentPixel_segmentedUpTo (ds : ℚ) (pd : DepthMem) (bpp : Nat) (p : Mem) (n : Nat) :
    segmentPixel ds pd bpp (segmentedUpTo ds pd bpp p n) n = segmentedUpTo ds pd bpp p (n + 1) := by
  funext j
  have hsucc : (n + 1) * bpp = n * bpp + bpp := by ring
  unfold segmentPixel
  by_cases hbg : isBackground ds pd n = true
  · rw [if_pos hbg]
    unfold memset segmentedUpTo
    rw [hsucc]
    by_cases hin : n * bpp ≤ j ∧ j < n * bpp + bpp
    · have hdiv := div_eq_of_pixel_range hin.1 hin.2
      rw [if_pos hin, if_pos ⟨hin.2, by rw [hdiv]; exact hbg⟩]
    · rw [if_neg hin]
      by_cases hlt : j < n * bpp
      · have h2 : j < n * bpp + bpp := by omega
        simp only [hlt, h2, true_and]
      · have h2 : ¬ j < n * bpp + bpp := by omega
        simp only [hlt, h2, false_and]
  · rw [if_neg hbg]
    unfold segmentedUpTo
    rw [hsucc]
    by_cases hin : n * bpp ≤ j ∧ j < n * bpp + bpp
    · have hdiv := div_eq_of_pixel_range hin.1 hin.2
      have hlt : ¬ j < n * bpp := by omega
      rw [hdiv]
      simp [hbg]
    · by_cases hlt : j < n * bpp
      · have h2 : j < n * bpp + bpp := by omega
        simp only [hlt, h2, true_and]
      · have h2 : ¬ j < n * bpp + bpp := by omega
        simp only [hlt, h2, false_and]

theorem segmentRow_segmentedUpTo (ds : ℚ) (pd : DepthMem) (bpp : Nat) (p : Mem) (k w : Nat) :
    segmentRow ds pd bpp w (segmentedUpTo ds pd bpp p k, k)
      = (segmentedUpTo ds pd bpp p (k + w), k + w) := by
  induction w with
  | zero => rfl
  | succ w ih =>
    unfold segmentRow at ih ⊢
    simp only [forLoop]
    rw [ih]
    simp only [segmentPixel_segmentedUpTo]
    rfl

theorem segmentedUpTo_zero (ds : ℚ) (pd : DepthMem) (bpp : Nat) (p : Mem) :
    segmentedUpTo ds pd bpp p 0 = p := by
  funext j
  simp [segmentedUpTo]

theorem segment_eq_segmentedUpTo (ds : ℚ) (pd : DepthMem) (w h bpp : Nat) (p : Mem) :
    segment ds pd w h bpp p = segmentedUpTo ds pd bpp p (h * w) := by
  induction h with
  | zero => simp [segment, forLoop, segmentedUpTo_zero]
  | succ h ih =>
    unfold segment at ih ⊢
    simp only [forLoop]
    rw [ih, segmentRow_segmentedUpTo]
    have : h * w + w = (h + 1) * w := by ring
    rw [this]

/-- The byte at offset `j` after the segmentation pass. -/
theorem segment_apply (ds : ℚ) (pd : DepthMem) (w h bpp : Nat) (p : Mem) (j : Nat) :
    segment ds pd w h bpp p j
      = if j < w * h * bpp ∧ isBackground ds pd (j / bpp) = true then 0x99 else p j := by
  rw [segment_eq_segmentedUpTo]
  unfold segmentedUpTo
  rw [Nat.mul_comm h w]

theorem isBackground_iff (ds : ℚ) (pd : DepthMem) (i : Nat) :
    isBackground ds pd i = true
      ↔ pixels_distance ds pd i ≤ 0 ∨ pixels_distance ds pd i > clipping_dist := by
  simp [isBackground]


/-- The rule for the bytes of one pixel, shared by the statements below. -/
theorem pixel_rule (depth_scale : ℚ) (p_depth_frame : DepthMem)
    (w h bpp : Nat) (p_other_frame : Mem)
    (i : Nat) (hi : i < w * h) (j : Nat) (hj1 : i * bpp ≤ j) (hj2 : j < (i + 1) * bpp) :
    ((pixels_distance depth_scale p_depth_frame i ≤ 0
        ∨ pixels_distance depth_scale p_depth_frame i > clipping_dist) →
      segment depth_scale p_depth_frame w h bpp p_other_frame j = 0x99)
    ∧ (¬ (pixels_distance depth_scale p_depth_frame i ≤ 0
        ∨ pixels_distance depth_scale p_depth_frame i > clipping_dist) →
      segment depth_scale p_depth_frame w h bpp p_other_frame j = p_other_frame j) := by
  have hj2b : j < i * bpp + bpp := by
    have : (i + 1) * bpp = i * bpp + bpp := by ring
    omega
  have hdiv : j / bpp = i := div_eq_of_pixel_range hj1 hj2b
  have hjlt : j < w * h * bpp := by
    have h1 : (i + 1) * bpp ≤ w * h * bpp := Nat.mul_le_mul_right bpp hi
    omega
  refine ⟨?_, ?_⟩
  · intro hbg
    rw [segment_apply, hdiv, if_pos ⟨hjlt, (isBackground_iff _ _ _).2 hbg⟩]
  · intro hbg
    rw [segment_apply, hdiv, if_neg]
    intro hc
    exact hbg ((isBackground_iff _ _ _).1 hc.2)

/-! ## C1: the per-pixel segmentation rule -/

/-- C1. For a frame of width `w`, height `h` and `bpp` bytes per pixel, any depth scale and any
pixel index `i < w * h`: after the segmentation pass every byte `j` of pixel `i`
(`i * bpp ≤ j < (i + 1) * bpp`) is `0x99` when the distance `depth_scale * raw_i` is `≤ 0` or
`> clipping_dist`, and keeps its former value otherwise; and every byte `k` at or beyond
`w * h * bpp` keeps its former value. -/
theorem C1_segmentation_per_pixel (depth_scale : ℚ) (p_depth_frame : DepthMem)
    (w h bpp : Nat) (p_other_frame : Mem)
    (i : Nat) (hi : i < w * h) (j : Nat) (hj1 : i * bpp ≤ j) (hj2 : j < (i + 1) * bpp)
    (k : Nat) (hk : w * h * bpp ≤ k) :
    ((pixels_distance depth_scale p_depth_frame i ≤ 0
        ∨ pixels_distance depth_scale p_depth_frame i > clipping_dist) →
      segment depth_scale p_depth_frame w h bpp p_other_frame j = 0x99)
    ∧ (¬ (pixels_distance depth_scale p_depth_frame i ≤ 0
        ∨ pixels_distance depth_scale p_depth_frame i > clipping_dist) →
      segment depth_scale p_depth_frame w h bpp p_other_frame j = p_other_frame j)
    ∧ segment depth_scale p_depth_frame w h bpp p_other_frame k = p_other_frame k := by
  have hrule := pixel_rule depth_scale p_depth_frame w h bpp p_other_frame i hi j hj1 hj2
  refine ⟨hrule.1, hrule.2, ?_⟩
  rw [segment_apply, if_neg]
  intro hc
  omega

/-- Witness of C1: a 2x1 frame of 3 bytes per pixel, depth scale 1/1000, raw samples 500 and
2000; byte 4 belongs to pixel 1 (distance 2 > 1) and byte 6 lies behind the frame. -/
theorem C1_segmentation_per_pixel_witness :
    (1 < 2 * 1 ∧ 1 * 3 ≤ 4 ∧ 4 < (1 + 1) * 3 ∧ 2 * 1 * 3 ≤ 6)
    ∧ segment (1 / 1000) (fun n => if n = 1 then 2000 else 500) 2 1 3 (fun _ => 7) 4 = 0x99
    ∧ segment (1 / 1000) (fun n => if n = 1 then 2000 else 500) 2 1 3 (fun _ => 7) 6 = 7 :=
  ⟨by decide,
   (C1_segmentation_per_pixel (1 / 1000) (fun n => if n = 1 then 2000 else 500) 2 1 3
      (fun _ => 7) 1 (by decide) 4 (by decide) (by decide) 6 (by decide)).1
      (Or.inr (by decide!)),
   (C1_segmentation_per_pixel (1 / 1000) (fun n => if n = 1 then 2000 else 500) 2 1 3
      (fun _ => 7) 1 (by decide) 4 (by decide) (by decide) 6 (by decide)).2.2⟩

/-! ## C2: the two extremes of the segmentation -/

/-- C2, as stated, fails in part (b): on a 1x1 frame whose only sample is raw 0 (distance 0 at
depth scale 1/1000) the clipping distance exceeds every computed distance, yet the pass
overwrites byte 0 of the colour frame (7 before, `0x99` after). -/
theorem C2_counterexample :
    (∀ i, i < 1 * 1 → pixels_distance (1 / 1000) (fun _ => 0) i < clipping_dist)
    ∧ segment (1 / 1000) (fun _ => 0) 1 1 3 (fun _ => 7) 0 ≠ (fun _ => 7 : Mem) 0 := by
  constructor
  · intro i _
    simp [pixels_distance, clipping_dist]
  · decide!

/-- C2, amended. (a) If every sample has a computed distance above `clipping_dist`, every byte
of the frame is `0x99` after the pass. (b) If every sample has a computed distance that is
positive and at most `clipping_dist`, the buffer after the pass equals the buffer before. -/
theorem C2_segmentation_extremes (depth_scale : ℚ) (p_depth_frame : DepthMem)
    (w h bpp : Nat) (p_other_frame : Mem) :
    ((∀ i, i < w * h → pixels_distance depth_scale p_depth_frame i > clipping_dist) →
      ∀ j, j < w * h * bpp →
        segment depth_scale p_depth_frame w h bpp p_other_frame j = 0x99)
    ∧ ((∀ i, i < w * h → 0 < pixels_distance depth_scale p_depth_frame i
          ∧ pixels_distance depth_scale p_depth_frame i ≤ clipping_dist) →
      segment depth_scale p_depth_frame w h bpp p_other_frame = p_other_frame) := by
  have hpix : ∀ j, j < w * h * bpp → j / bpp < w * h := by
    intro j hj
    have hb : 0 < bpp := by
      rcases Nat.eq_zero_or_pos bpp with h0 | h0
      · subst h0; omega
      · exact h0
    exact (Nat.div_lt_iff_lt_mul hb).2 hj
  constructor
  · intro hfar j hj
    rw [segment_apply, if_pos]
    exact ⟨hj, (isBackground_iff _ _ _).2 (Or.inr (hfar _ (hpix j hj)))⟩
  · intro hnear
    funext j
    rw [segment_apply, if_neg]
    rintro ⟨hj, hbg⟩
    have hn := hnear _ (hpix j hj)
    rcases (isBackground_iff _ _ _).1 hbg with h0 | h1
    · exact absurd hn.1 (not_lt.2 h0)
    · exact absurd h1 (not_lt.2 hn.2)

/-- Witness of C2: a 1x1 frame at depth scale 1/1000; raw 2000 (2 m) is blanked, raw 500
(0.5 m) leaves the buffer as it was. -/
theorem C2_segmentation_extremes_witness :
    (∀ j, j < 1 * 1 * 3 → segment (1 / 1000) (fun _ => 2000) 1 1 3 (fun _ => 7) j = 0x99)
    ∧ segment (1 / 1000) (fun _ => 500) 1 1 3 (fun _ => 7) = (fun _ => 7) :=
  ⟨(C2_segmentation_extremes (1 / 1000) (fun _ => 2000) 1 1 3 (fun _ => 7)).1
      (fun _ _ => by simp only [pixels_distance, clipping_dist]; decide!),
   (C2_segmentation_extremes (1 / 1000) (fun _ => 500) 1 1 3 (fun _ => 7)).2
      (fun _ _ => by simp only [pixels_distance, clipping_dist]; decide!)⟩

/-! ## C3: the filter flag and the main loop -/

/-- C3, as stated, fails: after the key `f` has switched `filter` off, an iteration on a 1x1
frame whose sample is raw 0 still hands the sink a frame that differs from the captured one in
byte 0 (7 captured, `0x99` sent). -/
theorem C3_counterexample :
    (pad_event solverA (initialGlobals planeA) (GstEvent.keyPress ("f"))).globals.filter = false
    ∧ (loop_body ransacA deprojectA () (1 / 1000)
        (pad_event solverA (initialGlobals planeA) (GstEvent.keyPress ("f"))).globals
        color7 (depth1 0)).sink 0 ≠ color7.get_data 0 := by
  constructor
  · decide!
  · decide!

/-- C3, amended. Whatever the value of `filter`, one iteration of the main loop runs the
segmentation pass: the frame handed to the sink is the segmented colour frame, it is the same
for any two values of the globals, and the iteration leaves `filter` as it found it. -/
theorem C3_filter_flag_not_consulted {Intr : Type}
    (ransac : List Vector3f → ℚ → Nat → PlaneModel)
    (deproject : Intr → ℚ × ℚ → ℚ → Vector3f) (intrinsics : Intr) (depth_scale : ℚ)
    (g g2 : Globals) (color_frame : VideoFrame) (depth : DepthFrame) :
    (loop_body ransac deproject intrinsics depth_scale g color_frame depth).sink
        = segment depth_scale depth.get_data depth.get_width depth.get_height
            color_frame.get_bytes_per_pixel color_frame.get_data
    ∧ (loop_body ransac deproject intrinsics depth_scale g color_frame depth).sink
        = (loop_body ransac deproject intrinsics depth_scale g2 color_frame depth).sink
    ∧ (loop_body ransac deproject intrinsics depth_scale g color_frame depth).globals.filter
        = g.filter := by
  refine ⟨rfl, rfl, ?_⟩
  unfold loop_body
  by_cases h : g.find_plane = true
  · simp [h]
  · simp [h]

/-! ## C4: the threshold of the segmentation -/

/-- C4, as stated, fails: six presses of `minus` drive `distance` below zero, and an iteration
on a 1x1 frame whose sample is raw 500 (0.5 m at depth scale 1/1000) still keeps the pixel:
byte 0 is the captured 7, not `0x99`. -/
theorem C4_counterexample :
    (handleEvents solverA (initialGlobals planeA)
        (List.replicate 6 (GstEvent.keyPress ("minus")))).distance < 0
    ∧ (loop_body ransacA deprojectA () (1 / 1000)
        (handleEvents solverA (initialGlobals planeA)
          (List.replicate 6 (GstEvent.keyPress ("minus"))))
        color7 (depth1 500)).sink 0 = 7 := by
  constructor
  · decide!
  · decide!

/-- C4, amended. One iteration of the main loop classifies the pixels against the fixed
threshold `clipping_dist = 1`, whatever `distance` the globals hold: every byte `j` of a pixel
`i` of the frame is kept when `0 < distance_i ≤ 1` and is `0x99` when `distance_i > 1`. -/
theorem C4_threshold_is_constant {Intr : Type}
    (ransac : List Vector3f → ℚ → Nat → PlaneModel)
    (deproject : Intr → ℚ × ℚ → ℚ → Vector3f) (intrinsics : Intr) (depth_scale : ℚ)
    (g : Globals) (color_frame : VideoFrame) (depth : DepthFrame)
    (i : Nat) (hi : i < depth.get_width * depth.get_height)
    (j : Nat) (hj1 : i * color_frame.get_bytes_per_pixel ≤ j)
    (hj2 : j < (i + 1) * color_frame.get_bytes_per_pixel) :
    clipping_dist = 1
    ∧ ((0 < depth_scale * ((depth.get_data i).val : ℚ)
          ∧ depth_scale * ((depth.get_data i).val : ℚ) ≤ 1) →
        (loop_body ransac deproject intrinsics depth_scale g color_frame depth).sink j
          = color_frame.get_data j)
    ∧ (depth_scale * ((depth.get_data i).val : ℚ) > 1 →
        (loop_body ransac deproject intrinsics depth_scale g color_frame depth).sink j
          = 0x99) := by
  have hC1 := pixel_rule depth_scale depth.get_data depth.get_width depth.get_height
    color_frame.get_bytes_per_pixel color_frame.get_data i hi j hj1 hj2
  refine ⟨rfl, ?_, ?_⟩
  · intro hkeep
    apply hC1.2
    rintro (h0 | h1)
    · exact absurd hkeep.1 (not_lt.2 h0)
    · exact absurd h1 (not_lt.2 hkeep.2)
  · intro hfar
    exact hC1.1 (Or.inr hfar)

/-- Witness of C4: the globals after six presses of `minus` (distance below zero), a 1x1
frame with raw sample 500 at depth scale 1/1000; byte 2 of pixel 0 is kept. -/
theorem C4_threshold_is_constant_witness :
    (0 < 1 * 1 ∧ 0 * 3 ≤ 2 ∧ 2 < (0 + 1) * 3)
    ∧ (loop_body ransacA deprojectA () (1 / 1000)
        (handleEvents solverA (initialGlobals planeA)
          (List.replicate 6 (GstEvent.keyPress ("minus"))))
        color7 (depth1 500)).sink 2 = color7.get_data 2 :=
  ⟨by decide,
   (C4_threshold_is_constant ransacA deprojectA () (1 / 1000)
      (handleEvents solverA (initialGlobals planeA)
        (List.replicate 6 (GstEvent.keyPress ("minus"))))
      color7 (depth1 500) 0 (by decide) 2 (by decide) (by decide)).2.1 (by decide!)⟩

/-! ## Lemmas on the event handler -/

theorem afterSwitch_of_ne (solver : List Point2f → List Point2f → Mat) (g : Globals)
    (h : g.src.length ≠ 4) : afterSwitch solver g = g := by
  unfold afterSwitch
  rw [if_neg h]

theorem keyPressCase_src (g : Globals) (key : String) : (keyPressCase g key).1.src = g.src := by
  unfold keyPressCase
  simp only
  split_ifs <;> rfl

theorem pad_event_src_le (solver : List Point2f → List Point2f → Mat) (g : Globals)
    (e : GstEvent) (h : g.src.length ≤ 3) : (pad_event solver g e).globals.src.length ≤ 3 := by
  cases e with
  | other handled => exact h
  | otherNavigation => exact h
  | mouseButtonRelease b x y =>
    simp only [pad_event, afterSwitch]
    split_ifs with h4
    · simp [calcPerspective]
    · simp only [List.length_append, List.length_singleton] at h4 ⊢
      omega
  | keyPress key =>
    simp only [pad_event]
    have hs := keyPressCase_src g key
    rw [afterSwitch_of_ne]
    · rw [hs]; exact h
    · rw [hs]; omega

theorem handleEvents_src_le (solver : List Point2f → List Point2f → Mat)
    (events : List GstEvent) :
    ∀ g : Globals, g.src.length ≤ 3 → (handleEvents solver g events).src.length ≤ 3 := by
  induction events with
  | nil => intro g h; exact h
  | cons e es ih =>
    intro g h
    simp only [handleEvents, List.foldl_cons]
    exact ih _ (pad_event_src_le solver g e h)

/-! ## C5: the calibration state machine -/

/-- C5. Start with an empty point set and an empty corner list. After `k` pointer releases,
`1 ≤ k ≤ 3`, the transform is the one before and the point set holds the `k` recorded points
in click order. After exactly four releases the point set and the corner list are empty
again and the transform is the result of `getPerspectiveTransform` on the four recorded points
and the four corners. After any sequence of events whatsoever, the point set holds at most
three points. -/
theorem C5_calibration_state_machine (getPerspectiveTransform : List Point2f → List Point2f → Mat)
    (g : Globals) (hsrc : g.src = []) (hdst : g.dst = []) (clicks : List (Int × ℚ × ℚ)) :
    (1 ≤ clicks.length → clicks.length ≤ 3 →
      (handleEvents getPerspectiveTransform g (clicks.map release)).pm = g.pm
      ∧ (handleEvents getPerspectiveTransform g (clicks.map release)).src
          = clicks.map recorded)
    ∧ (clicks.length = 4 →
      (handleEvents getPerspectiveTransform g (clicks.map release)).src = []
      ∧ (handleEvents getPerspectiveTransform g (clicks.map release)).dst = []
      ∧ (handleEvents getPerspectiveTransform g (clicks.map release)).pm
          = getPerspectiveTransform (clicks.map recorded) corners)
    ∧ (∀ events : List GstEvent,
        (handleEvents getPerspectiveTransform g events).src.length ≤ 3) := by
  refine ⟨?_, ?_, ?_⟩
  · intro h1 h3
    rcases clicks with _ | ⟨a, _ | ⟨b, _ | ⟨c, _ | ⟨d, t⟩⟩⟩⟩
    · simp at h1
    · simp [handleEvents, pad_event, afterSwitch, release, recorded, hsrc]
    · simp [handleEvents, pad_event, afterSwitch, release, recorded, hsrc]
    · simp [handleEvents, pad_event, afterSwitch, release, recorded, hsrc]
    · simp at h3
  · intro h4
    rcases clicks with _ | ⟨a, _ | ⟨b, _ | ⟨c, _ | ⟨d, _ | ⟨e, t⟩⟩⟩⟩⟩
    · simp at h4
    · simp at h4
    · simp at h4
    · simp at h4
    · simp [handleEvents, pad_event, afterSwitch, calcPerspective, release, recorded, corners,
        hsrc, hdst]
    · simp at h4
  · intro events
    apply handleEvents_src_le
    rw [hsrc]
    simp

/-- Witness of C5: from the initial globals, the clicks (200,100), (400,200), (200,400)
and then (100,200). -/
theorem C5_calibration_state_machine_witness :
    ((initialGlobals planeA).src = [] ∧ (initialGlobals planeA).dst = [])
    ∧ (handleEvents solverA (initialGlobals planeA)
        ([(1, 200, 100), (1, 400, 200), (1, 200, 400)].map release)).src
        = [(1, 200, 100), (1, 400, 200), (1, 200, 400)].map recorded
    ∧ (handleEvents solverA (initialGlobals planeA)
        ([(1, 200, 100), (1, 400, 200), (1, 200, 400), (1, 100, 200)].map release)).src = [] :=
  ⟨⟨rfl, rfl⟩,
   ((C5_calibration_state_machine solverA (initialGlobals planeA) rfl rfl
      [(1, 200, 100), (1, 400, 200), (1, 200, 400)]).1 (by decide) (by decide)).2,
   ((C5_calibration_state_machine solverA (initialGlobals planeA) rfl rfl
      [(1, 200, 100), (1, 400, 200), (1, 200, 400), (1, 100, 200)]).2.1 (by decide)).1⟩

/-! ## C7: the key-press transition table -/

/-- C7. For globals whose point set is in progress (not four points) and any key name, the
globals after the key press are those of `keyTable`: `space` sets the transform to
`diag(1280/1920, 720/1080, 1)`, `p` sets `find_plane`, `f` negates `filter`, `q` sets `quit`,
`plus` adds 0.2 to and `minus` subtracts 0.2 from `distance` without clamping, and any other
key changes nothing. The point set is the same before and after, and `space` pressed twice
leaves the same globals as `space` pressed once. -/
theorem C7_key_press_table (getPerspectiveTransform : List Point2f → List Point2f → Mat)
    (s : Globals) (key : String) (hsrc : s.src.length ≠ 4) :
    (pad_event getPerspectiveTransform s (GstEvent.keyPress key)).globals = keyTable s key
    ∧ (pad_event getPerspectiveTransform s (GstEvent.keyPress key)).globals.src = s.src
    ∧ (pad_event getPerspectiveTransform
          (pad_event getPerspectiveTransform s (GstEvent.keyPress ("space"))).globals
          (GstEvent.keyPress ("space"))).globals
        = (pad_event getPerspectiveTransform s (GstEvent.keyPress ("space"))).globals := by
  have hkey : ∀ (t : Globals) (k : String), t.src.length ≠ 4 →
      (pad_event getPerspectiveTransform t (GstEvent.keyPress k)).globals
        = (keyPressCase t k).1 := by
    intro t k ht
    simp only [pad_event]
    apply afterSwitch_of_ne
    rw [keyPressCase_src]
    exact ht
  have htable : ∀ (t : Globals) (k : String), (keyPressCase t k).1 = keyTable t k := by
    intro t k
    unfold keyPressCase keyTable
    by_cases h1 : k = "space"
    · have n2 : ¬ k = "p" := by rw [h1]; decide
      have n3 : ¬ k = "f" := by rw [h1]; decide
      have n4 : ¬ k = "q" := by rw [h1]; decide
      have n5 : ¬ k = "plus" := by rw [h1]; decide
      have n6 : ¬ k = "minus" := by rw [h1]; decide
      simp only [if_pos h1, if_neg n2, if_neg n3, if_neg n4, if_neg n5, if_neg n6]
      norm_num [im]
    by_cases h2 : k = "p"
    · have n3 : ¬ k = "f" := by rw [h2]; decide
      have n4 : ¬ k = "q" := by rw [h2]; decide
      have n5 : ¬ k = "plus" := by rw [h2]; decide
      have n6 : ¬ k = "minus" := by rw [h2]; decide
      simp only [if_neg h1, if_pos h2, if_neg n3, if_neg n4, if_neg n5, if_neg n6]
    by_cases h3 : k = "f"
    · have n4 : ¬ k = "q" := by rw [h3]; decide
      have n5 : ¬ k = "plus" := by rw [h3]; decide
      have n6 : ¬ k = "minus" := by rw [h3]; decide
      simp only [if_neg h1, if_neg h2, if_pos h3, if_neg n4, if_neg n5, if_neg n6]
    by_cases h4 : k = "q"
    · have n5 : ¬ k = "plus" := by rw [h4]; decide
      have n6 : ¬ k = "minus" := by rw [h4]; decide
      simp only [if_neg h1, if_neg h2, if_neg h3, if_pos h4, if_neg n5, if_neg n6]
    by_cases h5 : k = "plus"
    · have n6 : ¬ k = "minus" := by rw [h5]; decide
      simp only [if_neg h1, if_neg h2, if_neg h3, if_neg h4, if_pos h5, if_neg n6]
    by_cases h6 : k = "minus"
    · simp only [if_neg h1, if_neg h2, if_neg h3, if_neg h4, if_neg h5, if_pos h6]
    simp only [if_neg h1, if_neg h2, if_neg h3, if_neg h4, if_neg h5, if_neg h6]
  refine ⟨?_, ?_, ?_⟩
  · rw [hkey s key hsrc, htable]
  · rw [hkey s key hsrc, keyPressCase_src]
  · have h1 := hkey s ("space") hsrc
    have hs1 : (keyPressCase s ("space")).1.src.length ≠ 4 := by
      rw [keyPressCase_src]; exact hsrc
    rw [h1, hkey _ ("space") hs1, htable, htable]
    simp [keyTable]

/-- Witness of C7: the key `plus` on the initial globals. -/
theorem C7_key_press_table_witness :
    (initialGlobals planeA).src.length ≠ 4
    ∧ (pad_event solverA (initialGlobals planeA) (GstEvent.keyPress ("plus"))).globals
        = keyTable (initialGlobals planeA) ("plus") :=
  ⟨by decide,
   (C7_key_press_table solverA (initialGlobals planeA) ("plus") (by decide)).1⟩

/-! ## C8: the sign of the plane offset -/

/-- C8. Let `(n, d)` be the raw fit inside `ransac_plane` and `(n2, d2)` the plane it returns.
Then `d2 ≥ 0`; the plane is `(n, d)` when `d ≥ 0` and `(-n, -d)` when `d < 0`; and the same
points satisfy the equation of either plane, read as `n · x + d = 0` or as `n · x = d`. -/
theorem C8_plane_sign {Intr : Type} (ransac : List Vector3f → ℚ → Nat → PlaneModel)
    (deproject : Intr → ℚ × ℚ → ℚ → Vector3f)
    (depth : DepthFrame) (intr : Intr) (distance : ℚ) :
    0 ≤ (ransac_plane ransac deproject depth intr distance).1.d
    ∧ (0 ≤ (rawFit ransac deproject depth intr distance).d →
        (ransac_plane ransac deproject depth intr distance).1
          = rawFit ransac deproject depth intr distance)
    ∧ ((rawFit ransac deproject depth intr distance).d < 0 →
        (ransac_plane ransac deproject depth intr distance).1
          = { n := -(rawFit ransac deproject depth intr distance).n,
              d := -(rawFit ransac deproject depth intr distance).d })
    ∧ (∀ x : Vector3f,
        (dot (ransac_plane ransac deproject depth intr distance).1.n x
            + (ransac_plane ransac deproject depth intr distance).1.d = 0
          ↔ dot (rawFit ransac deproject depth intr distance).n x
            + (rawFit ransac deproject depth intr distance).d = 0)
        ∧ (dot (ransac_plane ransac deproject depth intr distance).1.n x
            = (ransac_plane ransac deproject depth intr distance).1.d
          ↔ dot (rawFit ransac deproject depth intr distance).n x
            = (rawFit ransac deproject depth intr distance).d)) := by
  have hdot : ∀ n x : Vector3f, dot (-n) x = -dot n x := by
    intro n x
    show (-n.x) * x.x + (-n.y) * x.y + (-n.z) * x.z = -(n.x * x.x + n.y * x.y + n.z * x.z)
    ring
  have hret : (ransac_plane ransac deproject depth intr distance).1
      = if (rawFit ransac deproject depth intr distance).d < 0
        then { n := -(rawFit ransac deproject depth intr distance).n,
               d := -(rawFit ransac deproject depth intr distance).d }
        else rawFit ransac deproject depth intr distance := by
    have h0 : (0.0 : ℚ) = 0 := by norm_num
    simp only [ransac_plane, rawFit, h0]
  rw [hret]
  generalize rawFit ransac deproject depth intr distance = raw
  by_cases hneg : raw.d < 0
  · rw [if_pos hneg]
    refine ⟨?_, fun h => absurd hneg (not_lt.2 h), fun _ => rfl, fun x => ?_⟩
    · show 0 ≤ -raw.d
      linarith
    show (dot (-raw.n) x + -raw.d = 0 ↔ dot raw.n x + raw.d = 0)
      ∧ (dot (-raw.n) x = -raw.d ↔ dot raw.n x = raw.d)
    rw [hdot]
    constructor
    · constructor <;> intro h <;> linarith
    · constructor <;> intro h <;> linarith
  · rw [if_neg hneg]
    exact ⟨not_lt.1 hneg, fun _ => rfl, fun h => absurd h hneg, fun x => ⟨Iff.rfl, Iff.rfl⟩⟩

/-- Witness of C8: a raw fit of offset -3 is returned with normal and offset negated. -/
theorem C8_plane_sign_witness :
    (rawFit ransacNeg deprojectA (depth1 0) () 1).d < 0
    ∧ (ransac_plane ransacNeg deprojectA (depth1 0) () 1).1 = { n := ⟨0, 0, -1⟩, d := 3 } := by
  refine ⟨by decide!, ?_⟩
  rw [(C8_plane_sign ransacNeg deprojectA (depth1 0) () 1).2.2.1 (by decide!)]
  decide!

/-! ## C9: loading the persisted transform -/

/-- C9, as stated, fails: when `perspective.xml` opens but holds no `perspective` entry, the
transform after `opencv_init` is what the read of the empty node left (the empty matrix), not
the default matrix `im`. -/
theorem C9_counterexample :
    (opencv_init cvRead { isOpened := true, perspective := none } (initialGlobals planeA)).pm
      ≠ im := by
  decide!

/-- C9, amended. After `opencv_init` the transform is the default matrix
`diag(1280/1920, 720/1080, 1)` when the file is not opened; when the file is opened it is
whatever the read of the `perspective` node left in `pm`, which is the saved matrix when one is
stored and the reader returns it; no other global changes. -/
theorem C9_load_with_default (readMat : Option Mat → Mat → Mat)
    (hread : ∀ (m : Mat) (pm0 : Mat), readMat (some m) pm0 = m)
    (file : FileStorage) (g : Globals) :
    (file.isOpened = false →
      (opencv_init readMat file g).pm = [[1280 / 1920, 0, 0], [0, 720 / 1080, 0], [0, 0, 1]])
    ∧ (file.isOpened = true →
      (opencv_init readMat file g).pm = readMat file.perspective g.pm)
    ∧ (∀ m : Mat, file.isOpened = true → file.perspective = some m →
      (opencv_init readMat file g).pm = m)
    ∧ opencv_init readMat file g = { g with pm := (opencv_init readMat file g).pm } := by
  unfold opencv_init
  refine ⟨?_, ?_, ?_, ?_⟩
  · intro h
    simp only [h]
    norm_num [im]
  · intro h
    simp [h]
  · intro m h hm
    simp [h, hm, hread]
  · cases file.isOpened <;> simp

/-- Witness of C9: with the reader of OpenCV, a missing file gives the default matrix and a
file that stores the matrix `[[1, 0, 0], [0, 1, 0], [0, 0, 1]]` gives that matrix. -/
theorem C9_load_with_default_witness :
    (∀ (m : Mat) (pm0 : Mat), cvRead (some m) pm0 = m)
    ∧ (opencv_init cvRead { isOpened := false, perspective := none }
        (initialGlobals planeA)).pm = [[1280 / 1920, 0, 0], [0, 720 / 1080, 0], [0, 0, 1]]
    ∧ (opencv_init cvRead
        { isOpened := true, perspective := some [[1, 0, 0], [0, 1, 0], [0, 0, 1]] }
        (initialGlobals planeA)).pm = [[1, 0, 0], [0, 1, 0], [0, 0, 1]] :=
  ⟨fun _ _ => rfl,
   (C9_load_with_default cvRead (fun _ _ => rfl) { isOpened := false, perspective := none }
      (initialGlobals planeA)).1 rfl,
   (C9_load_with_default cvRead (fun _ _ => rfl)
      { isOpened := true, perspective := some [[1, 0, 0], [0, 1, 0], [0, 0, 1]] }
      (initialGlobals planeA)).2.2.1 _ rfl rfl⟩

/-! ## C10: recomputing the plane -/

/-- C10, as stated, fails: with `find_plane` set, an iteration whose estimate is `planeB`
leaves the stored plane at its former value `planeA`. -/
theorem C10_counterexample :
    (initialGlobals planeA).find_plane = true
    ∧ (ransac_plane ransacB deprojectA (depth1 0) () (initialGlobals planeA).distance).1
        = planeB
    ∧ (loop_body ransacB deprojectA () (1 / 1000) (initialGlobals planeA) color7
        (depth1 0)).globals.plane = planeA
    ∧ planeA ≠ planeB := by
  refine ⟨rfl, ?_, rfl, ?_⟩
  · decide!
  · decide!

/-- C10, amended. If `find_plane` is set at the start of an iteration, `ransac_plane` is run
on the depth frame of that iteration (its two lines are the first printed), `find_plane` is
false afterwards, and every other global, the stored plane included, is as before; if
`find_plane` is not set, the iteration changes no global and prints only the centre
distance. -/
theorem C10_plane_recompute {Intr : Type} (ransac : List Vector3f → ℚ → Nat → PlaneModel)
    (deproject : Intr → ℚ × ℚ → ℚ → Vector3f) (intrinsics : Intr) (depth_scale : ℚ)
    (g : Globals) (color_frame : VideoFrame) (depth : DepthFrame) :
    (g.find_plane = true →
      (loop_body ransac deproject intrinsics depth_scale g color_frame depth).globals
          = { g with find_plane := false }
      ∧ (loop_body ransac deproject intrinsics depth_scale g color_frame depth).console
          = [Output.pointCount (collectPoints deproject depth intrinsics).length,
             Output.ransacPlane (ransac_plane ransac deproject depth intrinsics g.distance).1,
             Output.centerDistance
               (depth.get_distance (depth.get_width / 2) (depth.get_height / 2))])
    ∧ (g.find_plane = false →
      (loop_body ransac deproject intrinsics depth_scale g color_frame depth).globals = g
      ∧ (loop_body ransac deproject intrinsics depth_scale g color_frame depth).console
          = [Output.centerDistance
               (depth.get_distance (depth.get_width / 2) (depth.get_height / 2))]) := by
  unfold loop_body
  constructor
  · intro h
    simp [h, ransac_plane]
  · intro h
    simp [h]

/-- Witness of C10: the initial globals have `find_plane` set; after one iteration it is
cleared and the stored plane is still `planeA`. -/
theorem C10_plane_recompute_witness :
    (initialGlobals planeA).find_plane = true
    ∧ (loop_body ransacB deprojectA () (1 / 1000) (initialGlobals planeA) color7
        (depth1 0)).globals = { initialGlobals planeA with find_plane := false } :=
  ⟨rfl,
   ((C10_plane_recompute ransacB deprojectA () (1 / 1000) (initialGlobals planeA) color7
      (depth1 0)).1 rfl).1⟩

/-! ## Lemmas on perspective maps -/

theorem perspectiveMap_eq_some (m : Mat) (p c : Point2f) :
    perspectiveMap m p = some c ↔
      homogeneousW m p ≠ 0
      ∧ entry m 0 0 * p.x + entry m 0 1 * p.y + entry m 0 2 = c.x * homogeneousW m p
      ∧ entry m 1 0 * p.x + entry m 1 1 * p.y + entry m 1 2 = c.y * homogeneousW m p := by
  unfold perspectiveMap
  by_cases hw : homogeneousW m p = 0
  · simp [hw]
  · rw [if_neg hw]
    rcases c with ⟨u, v⟩
    simp only [Option.some.injEq, Point2f.mk.injEq, ne_eq, hw, not_false_eq_true, true_and]
    rw [div_eq_iff hw, div_eq_iff hw]

/-- A vector `(v1, v2, v3)` orthogonal to the homogeneous coordinates `(x, y, 1)` of three
points that are not on one line is zero. -/
theorem orthogonal_to_three (v1 v2 v3 xa ya xb yb xc yc : ℚ)
    (hD : ¬ (xb - xa) * (yc - ya) = (xc - xa) * (yb - ya))
    (ha : v1 * xa + v2 * ya + v3 = 0) (hb : v1 * xb + v2 * yb + v3 = 0)
    (hc : v1 * xc + v2 * yc + v3 = 0) : v1 = 0 ∧ v2 = 0 ∧ v3 = 0 := by
  have hD2 : (xb - xa) * (yc - ya) - (xc - xa) * (yb - ya) ≠ 0 := fun h => hD (by linarith)
  have h1 : v1 * ((xb - xa) * (yc - ya) - (xc - xa) * (yb - ya)) = 0 := by
    linear_combination (yc - ya) * hb - (yc - ya) * ha - (yb - ya) * hc + (yb - ya) * ha
  have h2 : v2 * ((xb - xa) * (yc - ya) - (xc - xa) * (yb - ya)) = 0 := by
    linear_combination (xb - xa) * hc - (xb - xa) * ha - (xc - xa) * hb + (xc - xa) * ha
  have e1 : v1 = 0 := by
    rcases mul_eq_zero.1 h1 with h | h
    · exact h
    · exact absurd h hD2
  have e2 : v2 = 0 := by
    rcases mul_eq_zero.1 h2 with h | h
    · exact h
    · exact absurd h hD2
  refine ⟨e1, e2, ?_⟩
  rw [e1, e2] at ha
  linarith

/-- A solution `(a .. h, 1)` of the linear system for four points in general position and the
four corners of the 1280x720 rectangle has a non-zero third homogeneous coordinate at each of
the four points. -/
theorem homogeneous_ne_zero (a b c d e f g h x1 y1 x2 y2 x3 y3 x4 y4 : ℚ)
    (g123 : ¬ (x2 - x1) * (y3 - y1) = (x3 - x1) * (y2 - y1))
    (g124 : ¬ (x2 - x1) * (y4 - y1) = (x4 - x1) * (y2 - y1))
    (g134 : ¬ (x3 - x1) * (y4 - y1) = (x4 - x1) * (y3 - y1))
    (g234 : ¬ (x3 - x2) * (y4 - y2) = (x4 - x2) * (y3 - y2))
    (A1 : a * x1 + b * y1 + c = 0) (B1 : d * x1 + e * y1 + f = 0)
    (A2 : a * x2 + b * y2 + c = 1280 * (g * x2 + h * y2 + 1))
    (B2 : d * x2 + e * y2 + f = 0)
    (A3 : a * x3 + b * y3 + c = 1280 * (g * x3 + h * y3 + 1))
    (B3 : d * x3 + e * y3 + f = 720 * (g * x3 + h * y3 + 1))
    (A4 : a * x4 + b * y4 + c = 0)
    (B4 : d * x4 + e * y4 + f = 720 * (g * x4 + h * y4 + 1)) :
    g * x1 + h * y1 + 1 ≠ 0 ∧ g * x2 + h * y2 + 1 ≠ 0
      ∧ g * x3 + h * y3 + 1 ≠ 0 ∧ g * x4 + h * y4 + 1 ≠ 0 := by
  refine ⟨?_, ?_, ?_, ?_⟩
  · intro w1
    have r1 := orthogonal_to_three (a - 1280 * g) (b - 1280 * h) (c - 1280) x1 y1 x2 y2 x3 y3
      g123 (by linear_combination A1 - 1280 * w1) (by linear_combination A2)
      (by linear_combination A3)
    have w4 : g * x4 + h * y4 + 1 = 0 := by
      linear_combination (A4 - x4 * r1.1 - y4 * r1.2.1 - r1.2.2) / 1280
    have r2 := orthogonal_to_three (d - 720 * g) (e - 720 * h) (f - 720) x1 y1 x3 y3 x4 y4
      g134 (by linear_combination B1 - 720 * w1) (by linear_combination B3)
      (by linear_combination B4)
    have w2 : g * x2 + h * y2 + 1 = 0 := by
      linear_combination (B2 - x2 * r2.1 - y2 * r2.2.1 - r2.2.2) / 720
    exact one_ne_zero (orthogonal_to_three g h 1 x1 y1 x2 y2 x4 y4 g124 w1 w2 w4).2.2
  · intro w2
    have r1 := orthogonal_to_three a b c x1 y1 x2 y2 x4 y4 g124 A1
      (by linear_combination A2 + 1280 * w2) A4
    have w3 : g * x3 + h * y3 + 1 = 0 := by
      linear_combination (x3 * r1.1 + y3 * r1.2.1 + r1.2.2 - A3) / 1280
    have r2 := orthogonal_to_three (d - 720 * g) (e - 720 * h) (f - 720) x2 y2 x3 y3 x4 y4
      g234 (by linear_combination B2 - 720 * w2) (by linear_combination B3)
      (by linear_combination B4)
    have w1 : g * x1 + h * y1 + 1 = 0 := by
      linear_combination (B1 - x1 * r2.1 - y1 * r2.2.1 - r2.2.2) / 720
    exact one_ne_zero (orthogonal_to_three g h 1 x1 y1 x2 y2 x3 y3 g123 w1 w2 w3).2.2
  · intro w3
    have r1 := orthogonal_to_three a b c x1 y1 x3 y3 x4 y4 g134 A1
      (by linear_combination A3 + 1280 * w3) A4
    have w2 : g * x2 + h * y2 + 1 = 0 := by
      linear_combination (x2 * r1.1 + y2 * r1.2.1 + r1.2.2 - A2) / 1280
    have r2 := orthogonal_to_three d e f x1 y1 x2 y2 x3 y3 g123 B1 B2
      (by linear_combination B3 + 720 * w3)
    have w4 : g * x4 + h * y4 + 1 = 0 := by
      linear_combination (x4 * r2.1 + y4 * r2.2.1 + r2.2.2 - B4) / 720
    exact one_ne_zero (orthogonal_to_three g h 1 x2 y2 x3 y3 x4 y4 g234 w2 w3 w4).2.2
  · intro w4
    have r1 := orthogonal_to_three (a - 1280 * g) (b - 1280 * h) (c - 1280) x2 y2 x3 y3 x4 y4
      g234 (by linear_combination A2) (by linear_combination A3)
      (by linear_combination A4 - 1280 * w4)
    have w1 : g * x1 + h * y1 + 1 = 0 := by
      linear_combination (A1 - x1 * r1.1 - y1 * r1.2.1 - r1.2.2) / 1280
    have r2 := orthogonal_to_three d e f x1 y1 x2 y2 x4 y4 g124 B1 B2
      (by linear_combination B4 + 720 * w4)
    have w3 : g * x3 + h * y3 + 1 = 0 := by
      linear_combination (x3 * r2.1 + y3 * r2.2.1 + r2.2.2 - B3) / 720
    exact one_ne_zero (orthogonal_to_three g h 1 x1 y1 x3 y3 x4 y4 g134 w1 w3 w4).2.2

/-- A matrix that solves the linear system for four points in general position and the four
corners maps each point to its corner. -/
theorem solution_mapsEach (m : Mat) (p1 p2 p3 p4 : Point2f)
    (hgp : generalPosition [p1, p2, p3, p4])
    (hsol : solvesSystem m [p1, p2, p3, p4] corners) :
    mapsEach m [p1, p2, p3, p4] corners := by
  obtain ⟨g123, g124, g134, g234⟩ := hgp
  obtain ⟨h22, ⟨A1, B1⟩, ⟨A2, B2⟩, ⟨A3, B3⟩, ⟨A4, B4⟩⟩ := hsol
  simp only [collinear] at g123 g124 g134 g234
  simp only [mul_zero, sub_zero] at A1 B1 A2 B2 A3 B3 A4 B4
  have hw := homogeneous_ne_zero (entry m 0 0) (entry m 0 1) (entry m 0 2) (entry m 1 0)
    (entry m 1 1) (entry m 1 2) (entry m 2 0) (entry m 2 1) p1.x p1.y p2.x p2.y p3.x p3.y
    p4.x p4.y g123 g124 g134 g234 A1 B1 (by linear_combination A2) B2
    (by linear_combination A3) (by linear_combination B3) A4 (by linear_combination B4)
  simp only [corners, mapsEach, perspectiveMap_eq_some, homogeneousW, h22, and_true]
  refine ⟨⟨hw.1, ?_, ?_⟩, ⟨hw.2.1, ?_, ?_⟩, ⟨hw.2.2.1, ?_, ?_⟩, ⟨hw.2.2.2, ?_, ?_⟩⟩
  · linear_combination A1
  · linear_combination B1
  · linear_combination A2
  · linear_combination B2
  · linear_combination A3
  · linear_combination B3
  · linear_combination A4
  · linear_combination B4

theorem four_clicks_pm (solver : List Point2f → List Point2f → Mat) (g : Globals)
    (hsrc : g.src = []) (hdst : g.dst = []) (c1 c2 c3 c4 : Int × ℚ × ℚ) :
    (handleEvents solver g [release c1, release c2, release c3, release c4]).pm
      = solver [recorded c1, recorded c2, recorded c3, recorded c4] corners := by
  simp [handleEvents, pad_event, afterSwitch, calcPerspective, release, recorded, corners,
    hsrc, hdst]

/-! ## Lemmas on the linear system of the homography -/

theorem exactSolve_mulVec (A : Matrix (Fin 8) (Fin 8) ℚ) (b : Fin 8 → ℚ) (hA : A.det ≠ 0) :
    A.mulVec (exactSolve A b) = b := by
  unfold exactSolve
  split_ifs with hker hsol
  · exact absurd (Matrix.exists_mulVec_eq_zero_iff.1 ⟨_, hker.1, hker.2⟩) hA
  · exact hsol
  · rw [Matrix.mulVec_smul, Matrix.mulVec_cramer, smul_smul, inv_mul_cancel₀ hA, one_smul]

/-- The rows of the linear system, written out. -/
theorem systemMatrix_mulVec (p1 p2 p3 p4 c1 c2 c3 c4 : Point2f) (X : Fin 8 → ℚ) :
    let r := (systemMatrix p1 p2 p3 p4 c1 c2 c3 c4).mulVec X
    r 0 = p1.x * X 0 + p1.y * X 1 + X 2 - p1.x * c1.x * X 6 - p1.y * c1.x * X 7
    ∧ r 1 = p2.x * X 0 + p2.y * X 1 + X 2 - p2.x * c2.x * X 6 - p2.y * c2.x * X 7
    ∧ r 2 = p3.x * X 0 + p3.y * X 1 + X 2 - p3.x * c3.x * X 6 - p3.y * c3.x * X 7
    ∧ r 3 = p4.x * X 0 + p4.y * X 1 + X 2 - p4.x * c4.x * X 6 - p4.y * c4.x * X 7
    ∧ r 4 = p1.x * X 3 + p1.y * X 4 + X 5 - p1.x * c1.y * X 6 - p1.y * c1.y * X 7
    ∧ r 5 = p2.x * X 3 + p2.y * X 4 + X 5 - p2.x * c2.y * X 6 - p2.y * c2.y * X 7
    ∧ r 6 = p3.x * X 3 + p3.y * X 4 + X 5 - p3.x * c3.y * X 6 - p3.y * c3.y * X 7
    ∧ r 7 = p4.x * X 3 + p4.y * X 4 + X 5 - p4.x * c4.y * X 6 - p4.y * c4.y * X 7 := by
  simp only [Matrix.mulVec, Matrix.dotProduct, Fin.sum_univ_eight]
  refine ⟨?_, ?_, ?_, ?_, ?_, ?_, ?_, ?_⟩
  · change p1.x * X 0 + p1.y * X 1 + 1 * X 2 + 0 * X 3 + 0 * X 4 + 0 * X 5
      + (-p1.x * c1.x) * X 6 + (-p1.y * c1.x) * X 7 = _
    ring
  · change p2.x * X 0 + p2.y * X 1 + 1 * X 2 + 0 * X 3 + 0 * X 4 + 0 * X 5
      + (-p2.x * c2.x) * X 6 + (-p2.y * c2.x) * X 7 = _
    ring
  · change p3.x * X 0 + p3.y * X 1 + 1 * X 2 + 0 * X 3 + 0 * X 4 + 0 * X 5
      + (-p3.x * c3.x) * X 6 + (-p3.y * c3.x) * X 7 = _
    ring
  · change p4.x * X 0 + p4.y * X 1 + 1 * X 2 + 0 * X 3 + 0 * X 4 + 0 * X 5
      + (-p4.x * c4.x) * X 6 + (-p4.y * c4.x) * X 7 = _
    ring
  · change 0 * X 0 + 0 * X 1 + 0 * X 2 + p1.x * X 3 + p1.y * X 4 + 1 * X 5
      + (-p1.x * c1.y) * X 6 + (-p1.y * c1.y) * X 7 = _
    ring
  · change 0 * X 0 + 0 * X 1 + 0 * X 2 + p2.x * X 3 + p2.y * X 4 + 1 * X 5
      + (-p2.x * c2.y) * X 6 + (-p2.y * c2.y) * X 7 = _
    ring
  · change 0 * X 0 + 0 * X 1 + 0 * X 2 + p3.x * X 3 + p3.y * X 4 + 1 * X 5
      + (-p3.x * c3.y) * X 6 + (-p3.y * c3.y) * X 7 = _
    ring
  · change 0 * X 0 + 0 * X 1 + 0 * X 2 + p4.x * X 3 + p4.y * X 4 + 1 * X 5
      + (-p4.x * c4.y) * X 6 + (-p4.y * c4.y) * X 7 = _
    ring

theorem exactPerspectiveTransform_solves (src dst : List Point2f) (h : nonsingular src dst) :
    solvesSystem (exactPerspectiveTransform src dst) src dst := by
  match src, dst, h with
  | [p1, p2, p3, p4], [c1, c2, c3, c4], h =>
    have hs := exactSolve_mulVec _ (systemRhs c1 c2 c3 c4) h
    have hrows := systemMatrix_mulVec p1 p2 p3 p4 c1 c2 c3 c4
      (exactSolve (systemMatrix p1 p2 p3 p4 c1 c2 c3 c4) (systemRhs c1 c2 c3 c4))
    simp only [hs] at hrows
    obtain ⟨r0, r1, r2, r3, r4, r5, r6, r7⟩ := hrows
    change c1.x = _ at r0
    change c2.x = _ at r1
    change c3.x = _ at r2
    change c4.x = _ at r3
    change c1.y = _ at r4
    change c2.y = _ at r5
    change c3.y = _ at r6
    change c4.y = _ at r7
    simp only [solvesSystem, pairEquations, exactPerspectiveTransform, entry, List.getD_cons_zero,
      List.getD_cons_succ, true_and]
    generalize exactSolve (systemMatrix p1 p2 p3 p4 c1 c2 c3 c4) (systemRhs c1 c2 c3 c4) = X
      at r0 r1 r2 r3 r4 r5 r6 r7 ⊢
    refine ⟨⟨?_, ?_⟩, ⟨?_, ?_⟩, ⟨?_, ?_⟩, ⟨?_, ?_⟩⟩
    · linear_combination -r0
    · linear_combination -r4
    · linear_combination -r1
    · linear_combination -r5
    · linear_combination -r2
    · linear_combination -r6
    · linear_combination -r3
    · linear_combination -r7

/-- The system of the clicks on the corners of the surface is nonsingular. -/
theorem nonsingular_clicksOnCorners :
    nonsingular (clicksOnCorners.map recorded) corners := by
  have hinv : systemMatrix ⟨0, 0⟩ ⟨1920, 0⟩ ⟨1920, 1080⟩ ⟨0, 1080⟩
        ⟨0, 0⟩ ⟨1280, 0⟩ ⟨1280, 720⟩ ⟨0, 720⟩
      * !![-1/1920, 1/1920, 0, 0, -1/1080, 1/1080, -1/1080, 1/1080;
           -1/1080, 0, 0, 1/1080, 0, 0, 0, 0;
           1, 0, 0, 0, 0, 0, 0, 0;
           0, 0, 0, 0, -1/1920, 1/1920, 0, 0;
           -1/1920, 1/1920, -1/1920, 1/1920, -1/1080, 0, 0, 1/1080;
           0, 0, 0, 0, 1, 0, 0, 0;
           0, 0, 0, 0, -1/1382400, 1/1382400, -1/1382400, 1/1382400;
           -1/1382400, 1/1382400, -1/1382400, 1/1382400, 0, 0, 0, 0] = 1 := by
    decide!
  have hrec : clicksOnCorners.map recorded
      = [⟨0, 0⟩, ⟨1920, 0⟩, ⟨1920, 1080⟩, ⟨0, 1080⟩] := by
    norm_num [clicksOnCorners, recorded]
  rw [hrec]
  exact Matrix.det_ne_zero_of_right_inverse hinv

/-- The system of the clicks through the origin is singular. -/
theorem singular_clicksThroughOrigin :
    ¬ nonsingular (clicksThroughOrigin.map recorded) corners := by
  have hrec : clicksThroughOrigin.map recorded
      = [⟨300, 150⟩, ⟨600, 300⟩, ⟨300, 600⟩, ⟨150, 300⟩] := by
    norm_num [clicksThroughOrigin, recorded]
  rw [hrec]
  intro hne
  apply hne
  apply Matrix.exists_mulVec_eq_zero_iff.1
  refine ⟨![2560, 2560, -1152000, -720, 1440, 0, 1, 1], ?_, ?_⟩
  · intro h0
    exact one_ne_zero (show (1 : ℚ) = 0 from congrFun h0 7)
  · decide!

/-! ## C6: the corner mapping of the installed homography -/

/-- C6, as stated, fails. The recorded points of the clicks (200,100), (400,200), (200,400),
(100,200) are in general position, yet whatever matrix with bottom-right entry 1 (the form
`getPerspectiveTransform` of OpenCV returns) is installed after the fourth click, it does not
map each recorded point to its corner. The linear system of these points is singular, and the
exact solver leaves the transform `[[0, 0, 0], [0, 0, 0], [0, 0, 1]]`. -/
theorem C6_counterexample :
    generalPosition (clicksThroughOrigin.map recorded)
    ∧ (∀ getPerspectiveTransform : List Point2f → List Point2f → Mat,
        entry (getPerspectiveTransform (clicksThroughOrigin.map recorded) corners) 2 2 = 1 →
        ¬ mapsEach
            (handleEvents getPerspectiveTransform (initialGlobals planeA)
              (clicksThroughOrigin.map release)).pm
            (clicksThroughOrigin.map recorded) corners)
    ∧ ¬ nonsingular (clicksThroughOrigin.map recorded) corners
    ∧ (handleEvents exactPerspectiveTransform (initialGlobals planeA)
        (clicksThroughOrigin.map release)).pm = [[0, 0, 0], [0, 0, 0], [0, 0, 1]] := by
  refine ⟨?_, ?_, singular_clicksThroughOrigin, by decide!⟩
  · norm_num [generalPosition, clicksThroughOrigin, recorded, collinear]
  · intro solver h22 hmap
    have hpm := four_clicks_pm solver (initialGlobals planeA) rfl rfl
      (1, 200, 100) (1, 400, 200) (1, 200, 400) (1, 100, 200)
    simp only [clicksThroughOrigin, List.map] at h22 hmap
    rw [hpm] at hmap
    generalize solver [recorded (1, 200, 100), recorded (1, 400, 200), recorded (1, 200, 400),
      recorded (1, 100, 200)] corners = m at h22 hmap
    simp only [corners, mapsEach, perspectiveMap_eq_some, homogeneousW, recorded, h22,
      and_true] at hmap
    obtain ⟨⟨_, _, B1⟩, ⟨_, _, B2⟩, ⟨_, _, B3⟩, ⟨_, _, B4⟩⟩ := hmap
    norm_num at B1 B2 B3 B4
    linarith

/-- C6, amended. Take four clicks, from an empty point set, whose recorded points are in
general position and whose linear system (the 8x8 system of `getPerspectiveTransform`, with
`c22 = 1`) is nonsingular. Then, for every `getPerspectiveTransform` that returns the solution
of a nonsingular system, and in particular for the exact solver, the transform installed after
the fourth click is the result of `getPerspectiveTransform` on the recorded points in click
order and the corners (0,0), (1280,0), (1280,720), (0,720) in this order, and it maps the i-th
recorded point to the i-th corner. -/
theorem C6_corner_mapping (g : Globals) (hsrc : g.src = []) (hdst : g.dst = [])
    (c1 c2 c3 c4 : Int × ℚ × ℚ)
    (hgp : generalPosition [recorded c1, recorded c2, recorded c3, recorded c4])
    (hns : nonsingular [recorded c1, recorded c2, recorded c3, recorded c4]
      [⟨0, 0⟩, ⟨1280, 0⟩, ⟨1280, 720⟩, ⟨0, 720⟩]) :
    (∀ getPerspectiveTransform : List Point2f → List Point2f → Mat,
      (∀ src dst, nonsingular src dst →
        solvesSystem (getPerspectiveTransform src dst) src dst) →
      (handleEvents getPerspectiveTransform g
          [release c1, release c2, release c3, release c4]).pm
        = getPerspectiveTransform [recorded c1, recorded c2, recorded c3, recorded c4]
            [⟨0, 0⟩, ⟨1280, 0⟩, ⟨1280, 720⟩, ⟨0, 720⟩]
      ∧ mapsEach
          (handleEvents getPerspectiveTransform g
            [release c1, release c2, release c3, release c4]).pm
          [recorded c1, recorded c2, recorded c3, recorded c4]
          [⟨0, 0⟩, ⟨1280, 0⟩, ⟨1280, 720⟩, ⟨0, 720⟩])
    ∧ (handleEvents exactPerspectiveTransform g
          [release c1, release c2, release c3, release c4]).pm
        = exactPerspectiveTransform [recorded c1, recorded c2, recorded c3, recorded c4]
            [⟨0, 0⟩, ⟨1280, 0⟩, ⟨1280, 720⟩, ⟨0, 720⟩]
    ∧ mapsEach
        (handleEvents exactPerspectiveTransform g
          [release c1, release c2, release c3, release c4]).pm
        [recorded c1, recorded c2, recorded c3, recorded c4]
        [⟨0, 0⟩, ⟨1280, 0⟩, ⟨1280, 720⟩, ⟨0, 720⟩] := by
  have hall : ∀ solver : List Point2f → List Point2f → Mat,
      (∀ src dst, nonsingular src dst → solvesSystem (solver src dst) src dst) →
      (handleEvents solver g [release c1, release c2, release c3, release c4]).pm
        = solver [recorded c1, recorded c2, recorded c3, recorded c4] corners
      ∧ mapsEach (handleEvents solver g [release c1, release c2, release c3, release c4]).pm
          [recorded c1, recorded c2, recorded c3, recorded c4] corners := by
    intro solver hlib
    have hpm := four_clicks_pm solver g hsrc hdst c1 c2 c3 c4
    refine ⟨hpm, ?_⟩
    rw [hpm]
    exact solution_mapsEach _ _ _ _ _ hgp (hlib _ _ hns)
  exact ⟨hall, hall exactPerspectiveTransform exactPerspectiveTransform_solves⟩

/-- Witness of C6: clicks on the four corners of the 1280x720 surface, handled with the exact
solver; their recorded points are in general position, their system is nonsingular, and the
installed transform, `diag(2/3, 2/3, 1)`, maps each recorded point to its corner. -/
theorem C6_corner_mapping_witness :
    ((initialGlobals planeA).src = [] ∧ (initialGlobals planeA).dst = [])
    ∧ generalPosition (clicksOnCorners.map recorded)
    ∧ nonsingular (clicksOnCorners.map recorded) corners
    ∧ mapsEach
        (handleEvents exactPerspectiveTransform (initialGlobals planeA)
          (clicksOnCorners.map release)).pm
        (clicksOnCorners.map recorded) corners
    ∧ (handleEvents exactPerspectiveTransform (initialGlobals planeA)
        (clicksOnCorners.map release)).pm = [[2 / 3, 0, 0], [0, 2 / 3, 0], [0, 0, 1]] :=
  ⟨⟨rfl, rfl⟩,
   by norm_num [generalPosition, clicksOnCorners, recorded, collinear],
   nonsingular_clicksOnCorners,
   (C6_corner_mapping (initialGlobals planeA) rfl rfl
      (1, 0, 0) (1, 1280, 0) (1, 1280, 720) (1, 0, 720)
      (by norm_num [generalPosition, recorded, collinear])
      nonsingular_clicksOnCorners).2.2,
   by decide!⟩

end SurfaceStreams
